import Mathlib

/-!
Verification of `eastl::allocator_malloc` (src/include/EASTL/allocator_malloc.h).

The class is a stateless adapter around the platform's malloc family.  We
embed it shallowly:

* `Config` captures the compile-time platform capability selection: the
  macro `EASTL_ALIGNED_MALLOC_AVAILABLE`, the predicate
  `defined(EA_PLATFORM_MICROSOFT)`, and the external constant
  `EASTL_SYSTEM_ALLOCATOR_MIN_ALIGNMENT` (defined in EASTL/allocator.h,
  outside this header; we carry it as a parameter).
* `PrimCall` is the syntax of the platform allocation primitives the header
  can invoke (`malloc`, `memalign`, `_aligned_malloc`,
  `_aligned_offset_malloc`); `FreeCall` likewise for `free`/`_aligned_free`.
* `allocate1`, `allocate4` and `deallocDispatch` are the three member
  functions' dispatch logic, translated clause by clause from the
  preprocessed source.  Note the `/*else*/` in the Microsoft branch of the
  four-argument `allocate`: the second `return` is the else-branch of the
  braceless `if`, so `_aligned_offset_malloc` runs exactly when
  `alignmentOffset % alignment != 0`.
* `PrimModel` is an abstract platform heap: a partial map from primitive
  calls to returned addresses; `PrimModel.Conforms` states each primitive's
  documented alignment contract.

Addresses and sizes are modelled as `Nat` (the C code only compares,
mods and forwards them; no overflow-relevant arithmetic occurs).
-/

/-- Compile-time platform capability configuration for allocator_malloc.
`alignedMallocAvailable` is `EASTL_ALIGNED_MALLOC_AVAILABLE`,
`isMicrosoft` is `defined(EA_PLATFORM_MICROSOFT)`, and `minAlignment` is
the external constant `EASTL_SYSTEM_ALLOCATOR_MIN_ALIGNMENT`. -/
structure Config where
  alignedMallocAvailable : Bool
  isMicrosoft : Bool
  minAlignment : Nat
  deriving DecidableEq, Repr

/-- A call to one of the platform allocation primitives, with its
arguments, in the argument order of the C functions. -/
inductive PrimCall where
  | malloc (n : Nat)
  | memalign (alignment : Nat) (n : Nat)
  | alignedMalloc (n : Nat) (alignment : Nat)
  | alignedOffsetMalloc (n : Nat) (alignment : Nat) (offset : Nat)
  deriving DecidableEq, Repr

/-- A call to one of the platform free primitives. -/
inductive FreeCall where
  | free
  | alignedFree
  deriving DecidableEq, Repr

/-- The free primitive matching each allocation primitive's family:
`malloc` and `memalign` blocks are released with `free`; the
`_aligned_*` family requires `_aligned_free`. -/
def matchingFree : PrimCall → FreeCall
  | .malloc _ => .free
  | .memalign _ _ => .free
  | .alignedMalloc _ _ => .alignedFree
  | .alignedOffsetMalloc _ _ _ => .alignedFree

/-- The alignment argument passed to the primitive, when it takes one
(`malloc` takes none). -/
def callAlign : PrimCall → Option Nat
  | .malloc _ => none
  | .memalign a _ => some a
  | .alignedMalloc _ a => some a
  | .alignedOffsetMalloc _ a _ => some a

/-- Dispatch of `allocator_malloc::allocate(size_t n, int flags)` (the
flags argument is unused in the source and omitted here).  Translated
from lines 91-98 of the header: `_aligned_malloc(n, MIN)` when
`EASTL_ALIGNED_MALLOC_AVAILABLE && defined(EA_PLATFORM_MICROSOFT)`,
otherwise `malloc(n)`. -/
def allocate1 (cfg : Config) (n : Nat) : PrimCall :=
  if cfg.alignedMallocAvailable && cfg.isMicrosoft then
    .alignedMalloc n cfg.minAlignment
  else
    .malloc n

/-- Dispatch of
`allocator_malloc::allocate(size_t n, size_t alignment, size_t alignmentOffset, int flags)`
(flags unused).  Translated from lines 100-115 of the header.  `none`
is the `return NULL` path (no primitive invoked).  In the Microsoft
branch the braceless `if` makes `_aligned_offset_malloc` the
else-branch (the source marks it `/*else*/`). -/
def allocate4 (cfg : Config) (n alignment alignmentOffset : Nat) :
    Option PrimCall :=
  if cfg.alignedMallocAvailable then
    if alignmentOffset % alignment == 0 then
      if cfg.isMicrosoft then some (.alignedMalloc n alignment)
      else some (.memalign alignment n)
    else
      if cfg.isMicrosoft then
        some (.alignedOffsetMalloc n alignment alignmentOffset)
      else none
  else
    if alignment ≤ cfg.minAlignment && alignmentOffset % alignment == 0 then
      some (.malloc n)
    else none

/-- Dispatch of `allocator_malloc::deallocate(void* p, size_t n)` (the
size argument is unused in the source): `_aligned_free` when
`EASTL_ALIGNED_MALLOC_AVAILABLE && defined(EA_PLATFORM_MICROSOFT)`,
otherwise `free` (lines 117-124). -/
def deallocDispatch (cfg : Config) : FreeCall :=
  if cfg.alignedMallocAvailable && cfg.isMicrosoft then .alignedFree
  else .free

/-- An abstract platform heap: the address (if any) each primitive call
returns.  `none` models allocation failure (heap exhaustion). -/
structure PrimModel where
  run : PrimCall → Option Nat

/-- The documented alignment contracts of the platform primitives:
`malloc` results are aligned to the platform minimum alignment,
`memalign(a, n)` and `_aligned_malloc(n, a)` results to `a`, and
`_aligned_offset_malloc(n, a, o)` results satisfy `(p + o) % a == 0`. -/
structure PrimModel.Conforms (m : PrimModel) (minAlign : Nat) : Prop where
  malloc_aligned : ∀ n a, m.run (.malloc n) = some a → a % minAlign = 0
  memalign_aligned : ∀ al n a, m.run (.memalign al n) = some a → a % al = 0
  alignedMalloc_aligned :
    ∀ n al a, m.run (.alignedMalloc n al) = some a → a % al = 0
  alignedOffsetMalloc_aligned :
    ∀ n al off a,
      m.run (.alignedOffsetMalloc n al off) = some a → (a + off) % al = 0

/-- The address returned by the four-argument `allocate` under heap
model `m`: the dispatched primitive's result, or `none` on the
`return NULL` path. -/
def allocateAddr (cfg : Config) (m : PrimModel)
    (n alignment alignmentOffset : Nat) : Option Nat :=
  (allocate4 cfg n alignment alignmentOffset).bind m.run

/-- The execution of the four-argument `allocate` under heap model `m`:
the list of primitive calls performed, paired with the returned
address. -/
def allocate4Run (cfg : Config) (m : PrimModel)
    (n alignment alignmentOffset : Nat) : List PrimCall × Option Nat :=
  match allocate4 cfg n alignment alignmentOffset with
  | some c => ([c], m.run c)
  | none => ([], none)

/-- `n` is a power of two. -/
def isPow2 (n : Nat) : Prop := ∃ k, n = 2 ^ k

/-- `a % b` with an explicit division-by-zero guard, used to model the C
`%` operator whose behavior is undefined for a zero divisor. -/
def checkedMod (a b : Nat) : Option Nat :=
  if b = 0 then none else some (a % b)

/-- The four-argument `allocate` dispatch with every `%` the C code
evaluates routed through `checkedMod`: the outer `none` means the code
would evaluate `x % 0` (undefined behavior).  The `&&` in the
no-aligned-malloc branch short-circuits, as in C: the `%` there is only
evaluated when `alignment <= minAlignment`. -/
def allocate4Checked (cfg : Config) (n alignment alignmentOffset : Nat) :
    Option (Option PrimCall) :=
  if cfg.alignedMallocAvailable then
    (checkedMod alignmentOffset alignment).map fun r =>
      if r == 0 then
        if cfg.isMicrosoft then some (.alignedMalloc n alignment)
        else some (.memalign alignment n)
      else
        if cfg.isMicrosoft then
          some (.alignedOffsetMalloc n alignment alignmentOffset)
        else none
  else
    if alignment ≤ cfg.minAlignment then
      (checkedMod alignmentOffset alignment).map fun r =>
        if r == 0 then some (.malloc n) else none
    else some none

/-- The adapter object itself: stateless (the C++ class has no data
members; every constructor discards its arguments). -/
structure AllocatorMalloc where
  deriving DecidableEq, Repr

/-- `allocator_malloc(const char*)`: the name is discarded. -/
def AllocatorMalloc.fromName (_ : Option String) : AllocatorMalloc := {}

/-- `allocator_malloc(const allocator_malloc&)`. -/
def AllocatorMalloc.copy (_ : AllocatorMalloc) : AllocatorMalloc := {}

/-- `allocator_malloc(const allocator_malloc&, const char*)`: both
arguments are discarded. -/
def AllocatorMalloc.copyWithName (_ : AllocatorMalloc) (_ : Option String) :
    AllocatorMalloc := {}

/-- `operator=`: returns `*this` unchanged. -/
def AllocatorMalloc.assign (a : AllocatorMalloc) (_ : AllocatorMalloc) :
    AllocatorMalloc := a

/-- `operator==`: unconditionally `true`. -/
def AllocatorMalloc.eqOp (_ _ : AllocatorMalloc) : Bool := true

/-- `operator!=`: unconditionally `false`. -/
def AllocatorMalloc.neOp (_ _ : AllocatorMalloc) : Bool := false

/-- `get_name`: always the literal `"allocator_malloc"`. -/
def AllocatorMalloc.get_name (_ : AllocatorMalloc) : String :=
  "allocator_malloc"

/-- `set_name(const char*)`: the argument is discarded. -/
def AllocatorMalloc.set_name (a : AllocatorMalloc) (_ : String) :
    AllocatorMalloc := a

/-- Apply a sequence of `set_name` calls. -/
def applySetNames (a : AllocatorMalloc) : List String → AllocatorMalloc
  | [] => a
  | s :: rest => applySetNames (a.set_name s) rest

/-- A heap model for witnesses: every primitive that promises only start
alignment returns address 0; `_aligned_offset_malloc` reports
exhaustion. -/
def zeroModel : PrimModel where
  run
    | .malloc _ => some 0
    | .memalign _ _ => some 0
    | .alignedMalloc _ _ => some 0
    | .alignedOffsetMalloc _ _ _ => none

/-- The zero-address model satisfies every primitive contract. -/
theorem zeroModel_conforms (minAlign : Nat) : zeroModel.Conforms minAlign where
  malloc_aligned := by intro n a h; simp [zeroModel] at h; simp [← h]
  memalign_aligned := by intro al n a h; simp [zeroModel] at h; simp [← h]
  alignedMalloc_aligned := by intro n al a h; simp [zeroModel] at h; simp [← h]
  alignedOffsetMalloc_aligned := by intro n al off a h; simp [zeroModel] at h

/-- A Microsoft-family configuration with minimum alignment 16. -/
def msCfg : Config := ⟨true, true, 16⟩

/-- A POSIX (non-Apple) configuration: `memalign` available, not
Microsoft, minimum alignment 16. -/
def posixCfg : Config := ⟨true, false, 16⟩

/-- A configuration with no aligned-malloc facility at all, minimum
alignment 16. -/
def noAlignedCfg : Config := ⟨false, false, 16⟩

/-- Powers of two divide larger powers of two. -/
theorem pow2_dvd_of_le {a b : Nat} (ha : isPow2 a) (hb : isPow2 b)
    (h : a ≤ b) : a ∣ b := by
  obtain ⟨i, rfl⟩ := ha
  obtain ⟨j, rfl⟩ := hb
  exact pow_dvd_pow 2 ((Nat.pow_le_pow_iff_right (by norm_num)).mp h)

/-- A power of two is positive. -/
theorem isPow2.pos {a : Nat} (ha : isPow2 a) : 0 < a := by
  obtain ⟨i, rfl⟩ := ha
  exact Nat.pos_pow_of_pos i (by norm_num)

/-- If `a` and `b` are multiples of `n`, so is `a + b`. -/
theorem add_mod_eq_zero {a b n : Nat} (ha : a % n = 0) (hb : b % n = 0) :
    (a + b) % n = 0 := by
  rw [Nat.add_mod, ha, hb]
  simp

/-- An address aligned to a larger power of two is aligned to a smaller
one. -/
theorem mod_eq_zero_of_pow2_le {a al mn : Nat} (hal : isPow2 al)
    (hmn : isPow2 mn) (hle : al ≤ mn) (h : a % mn = 0) : a % al = 0 := by
  have hdvd : al ∣ a := (pow2_dvd_of_le hal hmn hle).trans
    (Nat.dvd_of_mod_eq_zero h)
  obtain ⟨k, rfl⟩ := hdvd
  exact Nat.mul_mod_right al k

/-- Any alignment argument forwarded to a platform primitive by the
four-argument `allocate` is exactly the requested alignment. -/
theorem allocate4_call_alignment {cfg : Config} {n al off : Nat}
    {c : PrimCall} (h : allocate4 cfg n al off = some c) :
    ∀ b, callAlign c = some b → b = al := by
  intro b hb
  unfold allocate4 at h
  split at h
  · split at h
    · split at h
      · injection h with h; subst h; simp [callAlign] at hb; omega
      · injection h with h; subst h; simp [callAlign] at hb; omega
    · split at h
      · injection h with h; subst h; simp [callAlign] at hb; omega
      · exact absurd h (by simp)
  · split at h
    · injection h with h; subst h; simp [callAlign] at hb
    · exact absurd h (by simp)

/-- C1: whenever the four-argument `allocate` returns a block (under any
platform capability configuration, with the platform primitives meeting
their documented alignment contracts, and alignment and the minimum
alignment powers of two), the block address `a` satisfies
`(a + alignmentOffset) % alignment = 0`. -/
theorem allocate_respects_alignment (cfg : Config) (m : PrimModel)
    (n al off a : Nat) (hal : isPow2 al) (hmin : isPow2 cfg.minAlignment)
    (hm : m.Conforms cfg.minAlignment)
    (h : allocateAddr cfg m n al off = some a) :
    (a + off) % al = 0 := by
  unfold allocateAddr allocate4 at h
  split at h
  · split at h
    · rename_i hmod
      have hmod' : off % al = 0 := by simpa using hmod
      split at h
      · simp only [Option.some_bind] at h
        exact add_mod_eq_zero (hm.alignedMalloc_aligned n al a h) hmod'
      · simp only [Option.some_bind] at h
        exact add_mod_eq_zero (hm.memalign_aligned al n a h) hmod'
    · split at h
      · simp only [Option.some_bind] at h
        exact hm.alignedOffsetMalloc_aligned n al off a h
      · simp at h
  · split at h
    · rename_i hcond
      simp only [Bool.and_eq_true, decide_eq_true_eq, beq_iff_eq] at hcond
      simp only [Option.some_bind] at h
      have hmalloc := hm.malloc_aligned n a h
      exact add_mod_eq_zero
        (mod_eq_zero_of_pow2_le hal hmin hcond.1 hmalloc) hcond.2
    · simp at h

/-- Witness for C1: on the Microsoft configuration with alignment 8 and
offset 8, the dispatched `_aligned_malloc` under the zero-address heap
model returns address 0, and `(0 + 8) % 8 = 0`. -/
theorem allocate_respects_alignment_witness : (0 + 8) % 8 = 0 :=
  allocate_respects_alignment msCfg zeroModel 100 8 8 0
    ⟨3, by decide⟩ ⟨4, by decide⟩ (zeroModel_conforms 16) (by decide)

/-- C2 counterexample: on the Microsoft configuration, the call
`allocate(100, 8, 8)` has a non-zero `alignmentOffset`, yet the adapter
invokes `_aligned_malloc(100, 8)`, not
`_aligned_offset_malloc(100, 8, 8)`: the dispatch condition is
`alignmentOffset % alignment != 0`, not `alignmentOffset != 0`. -/
theorem microsoft_offset_dispatch_counterexample :
    (8 : Nat) ≠ 0 ∧
    allocate4 msCfg 100 8 8 = some (PrimCall.alignedMalloc 100 8) ∧
    allocate4 msCfg 100 8 8 ≠ some (PrimCall.alignedOffsetMalloc 100 8 8) := by
  decide

/-- C2 (amended): on a configuration with the aligned-allocate-with-offset
primitive (aligned malloc available, Microsoft family), `allocate`
invokes `_aligned_offset_malloc` with the requested size, alignment and
offset exactly when `alignmentOffset % alignment ≠ 0`; when
`alignmentOffset % alignment = 0` it invokes `_aligned_malloc` with the
requested alignment instead, even for a non-zero offset. -/
theorem microsoft_offset_dispatch (cfg : Config)
    (h1 : cfg.alignedMallocAvailable = true) (h2 : cfg.isMicrosoft = true)
    (n al off : Nat) :
    (off % al ≠ 0 →
      allocate4 cfg n al off =
        some (PrimCall.alignedOffsetMalloc n al off)) ∧
    (off % al = 0 →
      allocate4 cfg n al off = some (PrimCall.alignedMalloc n al)) := by
  constructor
  · intro hoff
    simp [allocate4, h1, h2, hoff]
  · intro hoff
    simp [allocate4, h1, h2, hoff]

/-- Witness for C2 (amended) at the Microsoft configuration with
alignment 8: offset 3 dispatches to `_aligned_offset_malloc`, offset 8
to `_aligned_malloc`. -/
theorem microsoft_offset_dispatch_witness :
    allocate4 msCfg 100 8 3 =
      some (PrimCall.alignedOffsetMalloc 100 8 3) ∧
    allocate4 msCfg 100 8 8 = some (PrimCall.alignedMalloc 100 8) :=
  ⟨(microsoft_offset_dispatch msCfg rfl rfl 100 8 3).1 (by decide),
   (microsoft_offset_dispatch msCfg rfl rfl 100 8 8).2 (by decide)⟩

/-- C3 counterexample: on the POSIX configuration the aligned-malloc
facility (`memalign`) is available, yet the single-argument `allocate`
delegates to plain `malloc`, not to `memalign` with the minimum
alignment. -/
theorem allocate1_posix_counterexample :
    posixCfg.alignedMallocAvailable = true ∧
    allocate1 posixCfg 100 = PrimCall.malloc 100 ∧
    allocate1 posixCfg 100 ≠
      PrimCall.memalign posixCfg.minAlignment 100 ∧
    allocate1 posixCfg 100 ≠
      PrimCall.alignedMalloc 100 posixCfg.minAlignment := by
  decide

/-- C3 (amended): the single-argument `allocate` delegates to the
aligned-allocate primitive (`_aligned_malloc` with the minimum-alignment
constant) exactly when the aligned facility is available AND the target
is Microsoft-family; on every other configuration — including POSIX
targets that do have `memalign` — it delegates to plain `malloc`. -/
theorem allocate1_dispatch (cfg : Config) (n : Nat) :
    (allocate1 cfg n = PrimCall.alignedMalloc n cfg.minAlignment ↔
       (cfg.alignedMallocAvailable && cfg.isMicrosoft) = true) ∧
    (allocate1 cfg n = PrimCall.malloc n ↔
       (cfg.alignedMallocAvailable && cfg.isMicrosoft) = false) := by
  unfold allocate1
  rcases h : cfg.alignedMallocAvailable && cfg.isMicrosoft <;> simp [h]

/-- C4: on a configuration with no aligned-malloc facility, the
four-argument `allocate` dispatches to plain `malloc` if and only if
the requested alignment is at most the platform minimum alignment and
the offset is congruent to 0 modulo the alignment; every other
combination returns null without any primitive call. -/
theorem allocate4_no_aligned_dispatch (cfg : Config)
    (h : cfg.alignedMallocAvailable = false) (n al off : Nat) :
    (allocate4 cfg n al off = some (PrimCall.malloc n) ↔
       (al ≤ cfg.minAlignment ∧ off % al = 0)) ∧
    (allocate4 cfg n al off = none ↔
       ¬(al ≤ cfg.minAlignment ∧ off % al = 0)) := by
  unfold allocate4
  by_cases h1 : al ≤ cfg.minAlignment <;> by_cases h2 : off % al = 0 <;>
    simp [h, h1, h2]

/-- Witness for C4: with no aligned facility and minimum alignment 16,
`allocate(100, 64, 3)` returns null. -/
theorem allocate4_no_aligned_dispatch_witness :
    allocate4 noAlignedCfg 100 64 3 = none :=
  ((allocate4_no_aligned_dispatch noAlignedCfg rfl 100 64 3).2).mpr
    (by decide)

/-- C5: the four-argument `allocate` performs at most one primitive
call; every alignment it passes to a primitive is exactly the requested
one (no fallback to a smaller alignment); an unsatisfiable request
(null dispatch) produces a null result with no primitive invoked; and
the result is null exactly when either the request was unsatisfiable or
the single dispatched primitive itself failed — both failure kinds use
the same null channel. -/
theorem allocate4_failure_channel (cfg : Config) (m : PrimModel)
    (n al off : Nat) :
    (allocate4Run cfg m n al off).1.length ≤ 1 ∧
    (∀ c, c ∈ (allocate4Run cfg m n al off).1 →
       ∀ b, callAlign c = some b → b = al) ∧
    (allocate4 cfg n al off = none →
       allocate4Run cfg m n al off = ([], none)) ∧
    ((allocate4Run cfg m n al off).2 = none ↔
       allocate4 cfg n al off = none ∨
         ∃ c, allocate4 cfg n al off = some c ∧ m.run c = none) := by
  unfold allocate4Run
  rcases hd : allocate4 cfg n al off with _ | c
  · simp
  · simp only [hd]
    refine ⟨by simp, ?_, by simp, ?_⟩
    · intro c' hc' b hb
      simp only [List.mem_singleton] at hc'
      subst hc'
      exact allocate4_call_alignment hd b hb
    · simp

/-- Witness exercising C5 on the POSIX configuration at an
incongruent offset: the dispatch is null, so the run makes no primitive
call and returns null. -/
theorem allocate4_failure_channel_witness :
    allocate4Run posixCfg zeroModel 100 8 3 = ([], none) :=
  (allocate4_failure_channel posixCfg zeroModel 100 8 3).2.2.1 (by decide)

/-- C6: on a configuration with the aligned facility but not
Microsoft-family (no offset support), a request whose offset is
congruent to 0 modulo the alignment dispatches to `memalign` with the
requested alignment (the offset is dropped), and any address it returns
is aligned to the requested alignment. -/
theorem posix_congruent_offset_dispatch (cfg : Config) (m : PrimModel)
    (h1 : cfg.alignedMallocAvailable = true) (h2 : cfg.isMicrosoft = false)
    (hm : m.Conforms cfg.minAlignment) (n al off : Nat)
    (hoff : off % al = 0) :
    allocate4 cfg n al off = some (PrimCall.memalign al n) ∧
    ∀ a, allocateAddr cfg m n al off = some a → a % al = 0 := by
  have hd : allocate4 cfg n al off = some (.memalign al n) := by
    simp [allocate4, h1, h2, hoff]
  refine ⟨hd, fun a ha => ?_⟩
  rw [allocateAddr, hd, Option.some_bind] at ha
  exact hm.memalign_aligned al n a ha

/-- Witness for C6: `allocate(100, 8, 8)` on the POSIX configuration
dispatches to `memalign(8, 100)`, and under the zero-address model the
returned address 0 is 8-aligned. -/
theorem posix_congruent_offset_dispatch_witness :
    allocate4 posixCfg 100 8 8 = some (PrimCall.memalign 8 100) ∧
    (0 : Nat) % 8 = 0 :=
  have h := posix_congruent_offset_dispatch posixCfg zeroModel rfl rfl
    (zeroModel_conforms 16) 100 8 8 (by decide)
  ⟨h.1, h.2 0 (by rfl)⟩

/-- C7: on every configuration, `deallocate` uses the free primitive of
the same family as whichever primitive any `allocate` overload could
have used to produce the block: `_aligned_free` for the `_aligned_*`
family on Microsoft targets, plain `free` for `malloc` and `memalign`
blocks everywhere else; the size argument plays no role. -/
theorem deallocate_matches_family (cfg : Config) (n al off : Nat)
    (c : PrimCall)
    (h : allocate4 cfg n al off = some c ∨ allocate1 cfg n = c) :
    deallocDispatch cfg = matchingFree c := by
  rcases h with h | h
  · unfold allocate4 at h
    by_cases h1 : cfg.alignedMallocAvailable = true
    · by_cases h2 : cfg.isMicrosoft = true
      · rw [if_pos h1] at h
        split at h <;>
          (injection h with h; subst h;
           simp [deallocDispatch, matchingFree, h1, h2])
      · have h2' : cfg.isMicrosoft = false := by simpa using h2
        rw [if_pos h1] at h
        split at h
        · injection h with h; subst h
          simp [deallocDispatch, matchingFree, h2']
        · exact absurd h (by simp)
    · have h1' : cfg.alignedMallocAvailable = false := by simpa using h1
      rw [if_neg h1] at h
      split at h
      · injection h with h; subst h
        simp [deallocDispatch, matchingFree, h1']
      · exact absurd h (by simp)
  · unfold allocate1 at h
    by_cases h12 : (cfg.alignedMallocAvailable && cfg.isMicrosoft) = true
    · rw [if_pos h12] at h
      subst h
      unfold deallocDispatch
      rw [if_pos h12]
      rfl
    · rw [if_neg h12] at h
      subst h
      unfold deallocDispatch
      rw [if_neg h12]
      rfl

/-- Witness for C7: on the Microsoft configuration, a block produced by
the single-argument `allocate` came from `_aligned_malloc`, and
`deallocate` uses `_aligned_free`. -/
theorem deallocate_matches_family_witness :
    deallocDispatch msCfg = matchingFree (PrimCall.alignedMalloc 100 16) :=
  deallocate_matches_family msCfg 100 8 0 (PrimCall.alignedMalloc 100 16)
    (Or.inr rfl)

/-- C8: `operator==` on the adapter is constantly true and `operator!=`
constantly false, for all instances however constructed. -/
theorem adapter_equality_constant (a b : AllocatorMalloc) :
    a.eqOp b = true ∧ a.neOp b = false :=
  ⟨rfl, rfl⟩

/-- C9: `get_name` returns the literal `"allocator_malloc"` for any
instance, whatever name was supplied at construction or by
copy-construction-with-name, and after any sequence of `set_name`
calls: the name arguments are discarded. -/
theorem get_name_constant (init : Option String) (names : List String)
    (a : AllocatorMalloc) (s : Option String) :
    (applySetNames (AllocatorMalloc.fromName init) names).get_name =
      "allocator_malloc" ∧
    (AllocatorMalloc.copyWithName a s).get_name = "allocator_malloc" ∧
    (AllocatorMalloc.copy a).get_name = "allocator_malloc" :=
  ⟨rfl, rfl, rfl⟩

/-- C10: with a power-of-two alignment the four-argument `allocate` is
total: the alignment is non-zero, every `%` the code evaluates has a
non-zero divisor (the UB-checked dispatch returns a value), and that
value is exactly the total dispatch — every input reaches a primitive
call or the null return. -/
theorem allocate4_total (cfg : Config) (n al off : Nat)
    (h : isPow2 al) :
    al ≠ 0 ∧
    allocate4Checked cfg n al off = some (allocate4 cfg n al off) := by
  have hal : al ≠ 0 := Nat.pos_iff_ne_zero.mp h.pos
  refine ⟨hal, ?_⟩
  unfold allocate4Checked allocate4 checkedMod
  rcases h1 : cfg.alignedMallocAvailable
  · simp only [Bool.false_eq_true, if_false]
    by_cases h2 : al ≤ cfg.minAlignment <;> by_cases h3 : off % al = 0 <;>
      simp [hal, h2, h3]
  · by_cases h3 : off % al = 0 <;> simp [hal, h3]

/-- Witness for C10: at the Microsoft configuration with alignment 8
and offset 3, the checked dispatch evaluates without division by zero
and agrees with the total dispatch. -/
theorem allocate4_total_witness :
    (8 : Nat) ≠ 0 ∧
    allocate4Checked msCfg 5 8 3 = some (allocate4 msCfg 5 8 3) :=
  allocate4_total msCfg 5 8 3 ⟨3, by decide⟩
